import Mathlib

/-!
Verification of the AutoGraph control-flow lowering core
(`frontend/catalyst/ag_primitives.py`).

The embedding models Python values flowing through the lowering core as the
inductive type `Value`, Python exceptions as `Except PyError`, and the
caller-supplied `get_state`/`set_state` closures as an abstract state type `σ`
with a capture function `σ → List Value` and a restore function
`List Value → σ → σ`.  The tracked-variable tuple is a `List Value`.

The backend tracing primitives `catalyst.cond` and `catalyst.for_loop` are
repository code that is not part of the sources verified here; they are
modelled from the specification of the backend collaborator contract
(a two-branch functional conditional that traces both branches and returns the
selected branch's result tuple, and a bounded-loop primitive threading carried
values over `range(start, stop, step)`).
-/

namespace CatalystAG

/-- JAX dtypes distinguished by the model (enough to express dtype mismatches). -/
inductive Dtype where
  | intTy : Dtype
  | floatTy : Dtype
  | boolTy : Dtype
deriving DecidableEq, Repr

/-- The abstract (shape, dtype) signature produced by `jax.api_util.shaped_abstractify`. -/
structure AbsTy where
  dtype : Dtype
  shape : List Nat
deriving DecidableEq, Repr

/-- A Python value as seen by the lowering core: the AutoGraph `Undefined`
sentinel (whose repr is the symbol name it was created with), numeric scalars,
traced arrays carrying shape and dtype, tuples (as produced for enumeration
elements), and opaque non-traceable Python objects. -/
inductive Value where
  | undefV (name : String) : Value
  | intV (n : Int) : Value
  | boolV (b : Bool) : Value
  | arrV (dtype : Dtype) (shape : List Nat) : Value
  | pairV (fst snd : Value) : Value
  | obj (tyName : String) : Value
deriving DecidableEq, Repr

/-- `isinstance(v, Undefined)`. -/
def Value.isUndef : Value → Bool
  | .undefV _ => true
  | _ => false

/-- Structured content of the `AutoGraphError` messages raised by the core.
Each constructor records exactly the data interpolated into the corresponding
f-string in the source. -/
inductive AGMsg where
  | branchUndefinedVar (v : String) : AGMsg
  | loopUninitializedVar (v : String) : AGMsg
  | loopNonTraceableVar (v : String) (ty : String) : AGMsg
  | loopTypeInstability (v : String) (expected got : AbsTy) : AGMsg
  | strictConversion (target info : String) : AGMsg
deriving DecidableEq, Repr

/-- Python exceptions relevant to the core: `AutoGraphError`, builtin error
classes raised by operations the core performs, and arbitrary user exceptions
(`userExc`) that a traced loop or branch body may raise. -/
inductive PyError where
  | autoGraph (m : AGMsg) : PyError
  | typeError (msg : String) : PyError
  | valueError (msg : String) : PyError
  | attributeError (msg : String) : PyError
  | assertionError : PyError
  | indexError : PyError
  | userExc (code : Nat) : PyError
deriving DecidableEq, Repr

/-- Python `type(v).__name__` for the values of the model. -/
def pyTypeName : Value → String
  | .undefV _ => "Undefined"
  | .intV _ => "int"
  | .boolV _ => "bool"
  | .arrV _ _ => "Array"
  | .pairV _ _ => "tuple"
  | .obj tyName => tyName

/-- `jax.api_util.shaped_abstractify`: abstract a value into its (shape, dtype)
signature, raising `TypeError` for values that have no JAX type (the
`Undefined` sentinel, tuples, arbitrary Python objects). -/
def shaped_abstractify : Value → Except PyError AbsTy
  | .intV _ => .ok ⟨.intTy, []⟩
  | .boolV _ => .ok ⟨.boolTy, []⟩
  | .arrV d sh => .ok ⟨d, sh⟩
  | v => .error (.typeError (pyTypeName v))

/-- Python `str(v)` for the values of the model. -/
def valueRepr : Value → String
  | .undefV v => v
  | .intV n => toString n
  | .boolV b => if b then "True" else "False"
  | .arrV _ _ => "Array"
  | .pairV a b => "(" ++ valueRepr a ++ ", " ++ valueRepr b ++ ")"
  | .obj tyName => "<" ++ tyName ++ " object>"

/-- A Python sequence-like object offered as (or inside) an iteration target:
either a list-like sequence (supports `len()`) or a generator/iterator, which
does not support `len()`. -/
inductive PySeq where
  | list (elems : List Value) : PySeq
  | gen (elems : List Value) : PySeq
deriving DecidableEq, Repr

/-- The elements a sequence yields when iterated natively. -/
def PySeq.elems : PySeq → List Value
  | .list es => es
  | .gen es => es

/-- Message of the `TypeError` raised by `len()` on an object without `__len__`. -/
def genLenMsg : String := "object of type generator has no len()"

/-- Python `len(seq)`: raises `TypeError` for generators. -/
def pyLen : PySeq → Except PyError Int
  | .list es => .ok es.length
  | .gen _ => .error (.typeError genLenMsg)

/-- The iteration target of a `for` statement after AutoGraph call
interception: a `CRange` (carrying the raw start/stop/step), a `CEnumerate`
(carrying the inner iterable and the start index), or a plain Python
sequence-like object. -/
inductive IterTarget where
  | crange (start stop step : Int) : IterTarget
  | cenum (inner : PySeq) (startIdx : Int) : IterTarget
  | seq (q : PySeq) : IterTarget
deriving DecidableEq, Repr

/-- Python `str(target)` (model of the default object reprs and list repr). -/
def pyRepr : IterTarget → String
  | .crange _ _ _ => "<CRange object>"
  | .cenum _ _ => "<CEnumerate object>"
  | .seq (.list es) => "[" ++ String.intercalate ", " (es.map valueRepr) ++ "]"
  | .seq (.gen _) => "<generator object>"

/-- `jnp.asarray(seq)` as used on iteration targets: materialization succeeds
exactly when every element abstractifies to the same (shape, dtype) signature,
in which case indexing the resulting array recovers the original elements.
Heterogeneous or non-numeric content fails to materialize. -/
def asarray? : PySeq → Option (List Value)
  | .gen _ => none
  | .list es =>
    match es.mapM (fun v => (shaped_abstractify v).toOption) with
    | none => none
    | some tys =>
      if tys.all (fun t => t = tys.headD ⟨.intTy, []⟩) then some es else none

/-- Indexing a materialized array with a (possibly traced) integer index, with
JAX gather semantics: negative indices count from the end and out-of-bounds
indices clamp to the valid range. -/
def jnp_index (arr : List Value) (i : Int) : Value :=
  let n : Int := arr.length
  let j := if i < 0 then i + n else i
  let j := max 0 (min j (n - 1))
  arr.getD j.toNat (.obj "empty")

/-- Number of elements of Python `range(a, b, c)` for a nonzero step `c`. -/
def rangeCount (a b c : Int) : Nat :=
  if c > 0 then ((b - a + c - 1) / c).toNat
  else if c < 0 then ((a - b - c - 1) / (-c)).toNat
  else 0

/-- The elements of Python `range(a, b, c)` in iteration order, for a nonzero
step `c` (a zero step is rejected by `range` itself, see `nativeIter`). -/
def rangeList (a b c : Int) : List Int :=
  (List.range (rangeCount a b c)).map (fun k => a + c * Int.ofNat k)

/-- The pairs yielded by Python `enumerate(es, sidx)` in iteration order:
`(sidx + k, es[k])` for `k = 0, 1, ...`. -/
def enumElems (sidx : Int) (es : List Value) : List Value :=
  (List.range es.length).map
    (fun k => .pairV (.intV (sidx + Int.ofNat k)) (es.getD k (.obj "empty")))

/-- The elements produced by natively iterating an iteration target with a
plain Python `for` loop: a `CRange` iterates its underlying `range` object
(which raises `ValueError` for a zero step), a `CEnumerate` yields
index/element pairs, and a plain sequence yields its elements. -/
def nativeIter : IterTarget → Except PyError (List Value)
  | .crange a b c =>
    if c = 0 then .error (.valueError "range arg 3 must not be zero")
    else .ok ((rangeList a b c).map .intV)
  | .cenum inner sidx => .ok (enumElems sidx inner.elems)
  | .seq q => .ok q.elems

/-- `assert_results`: assert that the branch results match the symbol names in
arity and that none of them is `Undefined`; raises `AutoGraphError` naming the
first variable some branch did not define. -/
def assert_results (results : List Value) (var_names : List String) :
    Except PyError (List Value) :=
  if results.length ≠ var_names.length then .error .assertionError
  else
    match (results.zip var_names).find? (fun rv => rv.1.isUndef) with
    | some rv => .error (.autoGraph (.branchUndefinedVar rv.2))
    | none => .ok results

/-- Body of `assert_for_loop_inputs`, walking the inputs with their index:
an `Undefined` input raises naming the sentinel's own symbol name; an input
that `shaped_abstractify` rejects raises naming `iterate_names[i]` and the
input's runtime type. -/
def assert_for_loop_inputs_aux : Nat → List Value → List String → Except PyError Unit
  | _, [], _ => .ok ()
  | i, inp :: rest, iterate_names =>
    match inp with
    | .undefV v => .error (.autoGraph (.loopUninitializedVar v))
    | _ =>
      match shaped_abstractify inp with
      | .error _ =>
        match iterate_names.get? i with
        | none => .error .indexError
        | some nm => .error (.autoGraph (.loopNonTraceableVar nm (pyTypeName inp)))
      | .ok _ => assert_for_loop_inputs_aux (i + 1) rest iterate_names

/-- `assert_for_loop_inputs`: all loop-carried values must be defined and be
valid JAX types before a graph-native loop can be traced. -/
def assert_for_loop_inputs (inputs : List Value) (iterate_names : List String) :
    Except PyError Unit :=
  assert_for_loop_inputs_aux 0 inputs iterate_names

/-- Body of `assert_for_loop_results`, walking `zip(inputs, outputs)` with the
index: both sides are abstractified (propagating `TypeError`), and a (shape,
dtype) mismatch raises `AutoGraphError` reporting Expected (the output type)
versus Got (the input type) for `iterate_names[i]`. -/
def assert_for_loop_results_aux :
    Nat → List (Value × Value) → List String → Except PyError Unit
  | _, [], _ => .ok ()
  | i, (inp, out) :: rest, iterate_names =>
    match shaped_abstractify inp with
    | .error e => .error e
    | .ok inp_t =>
      match shaped_abstractify out with
      | .error e => .error e
      | .ok out_t =>
        if inp_t.dtype ≠ out_t.dtype ∨ inp_t.shape ≠ out_t.shape then
          match iterate_names.get? i with
          | none => .error .indexError
          | some nm => .error (.autoGraph (.loopTypeInstability nm out_t inp_t))
        else assert_for_loop_results_aux (i + 1) rest iterate_names

/-- `assert_for_loop_results`: the results of a graph-native for loop must have
identical (shape, dtype) to the corresponding inputs. -/
def assert_for_loop_results (inputs outputs : List Value) (iterate_names : List String) :
    Except PyError Unit :=
  assert_for_loop_results_aux 0 (inputs.zip outputs) iterate_names

/-- Modelled from the spec: the backend two-branch functional conditional
primitive `catalyst.cond` (absent from the verified sources). Both branch
procedures are traced — the "then" procedure first, then the "otherwise"
procedure — with any tracing exception propagating, and the callable produces
the selected branch's result tuple. -/
def catalyst_cond {σ : Type} (pred : Bool)
    (then_fn otherwise_fn : σ → Except PyError (σ × List Value)) (s : σ) :
    Except PyError (σ × List Value) :=
  match then_fn s with
  | .error e => .error e
  | .ok (s1, then_results) =>
    match otherwise_fn s1 with
    | .error e => .error e
    | .ok (s2, otherwise_results) =>
      .ok (s2, if pred then then_results else otherwise_results)

/-- Iterating the registered body procedure of the bounded-loop primitive over
a list of index values, threading the ambient state and the carried tuple. -/
def runLoop {σ : Type}
    (body : Int → List Value → σ → Except PyError (σ × List Value)) :
    List Int → σ → List Value → Except PyError (σ × List Value)
  | [], s, carry => .ok (s, carry)
  | i :: rest, s, carry =>
    match body i carry s with
    | .error e => .error e
    | .ok (s2, carry2) => runLoop body rest s2 carry2

/-- Modelled from the spec: the backend bounded-loop primitive
`catalyst.for_loop` (absent from the verified sources). The builder registers a
body procedure `(index, *carry) -> carry'` and returns a callable that, given
initial carry values, runs the loop over `range(start, stop, step)` and returns
the final carry values. -/
def catalyst_for_loop {σ : Type} (start stop step : Int)
    (body : Int → List Value → σ → Except PyError (σ × List Value))
    (init : List Value) (s : σ) : Except PyError (σ × List Value) :=
  runLoop body (rangeList start stop step) s init

/-- One branch procedure of `if_stmt`: restore the shared entry state, run the
branch, capture the resulting state, and validate it with `assert_results`. -/
def if_branch {σ : Type} (fn : σ → Except PyError σ) (get_state : σ → List Value)
    (set_state : List Value → σ → σ) (symbol_names : List String)
    (init_state : List Value) (s : σ) : Except PyError (σ × List Value) :=
  match fn (set_state init_state s) with
  | .error e => .error e
  | .ok s2 =>
    match assert_results (get_state s2) symbol_names with
    | .error e => .error e
    | .ok results => .ok (s2, results)

/-- `if_stmt`: the AutoGraph conditional statement implemented with the
Catalyst functional conditional. The entry state is captured once; both
branches are traced from it; the selected branch's (validated) result tuple is
restored. The results of the modelled primitive are always a tuple, so the
single-result normalization performed by the source is the identity here. -/
def if_stmt {σ : Type} (pred : Bool) (true_fn false_fn : σ → Except PyError σ)
    (get_state : σ → List Value) (set_state : List Value → σ → σ)
    (symbol_names : List String) (_num_results : Nat) (s : σ) : Except PyError σ :=
  let init_state := get_state s
  match catalyst_cond pred
      (if_branch true_fn get_state set_state symbol_names init_state)
      (if_branch false_fn get_state set_state symbol_names init_state) s with
  | .error e => .error e
  | .ok (s2, results) => .ok (set_state results s2)

/-- The loop-body procedure built by `_call_catalyst_for` and registered with
the bounded-loop primitive: restore the carried state, compute the element to
expose to the user body (`i` for ranges, `array[i]` for plain iterables,
`(i + enum_start, array[i])` for enumerations — with indexing `None` raising
`TypeError` in the unreachable enumerate-without-array case), invoke the user
body, then capture and return the resulting state. -/
def catalyst_loop_body {σ : Type} (body_fn : Value → σ → Except PyError σ)
    (get_state : σ → List Value) (set_state : List Value → σ → σ)
    (enum_start : Option Int) (array_iterable : Option (List Value))
    (i : Int) (iter_args : List Value) (s : σ) : Except PyError (σ × List Value) :=
  let s1 := set_state iter_args s
  let elem : Except PyError Value :=
    match enum_start, array_iterable with
    | none, none => .ok (.intV i)
    | none, some arr => .ok (jnp_index arr i)
    | some es, some arr => .ok (.pairV (.intV (i + es)) (jnp_index arr i))
    | some _, none => .error (.typeError "NoneType is not subscriptable")
  match elem with
  | .error e => .error e
  | .ok el =>
    match body_fn el s1 with
    | .error e => .error e
    | .ok s2 => .ok (s2, get_state s2)

/-- `_call_catalyst_for`: dispatch to the Catalyst implementation of for loops.
Validates the initial carried values, runs the bounded-loop primitive, then
validates type stability of the results. -/
def _call_catalyst_for {σ : Type} (start stop step : Int)
    (body_fn : Value → σ → Except PyError σ)
    (get_state : σ → List Value) (set_state : List Value → σ → σ)
    (iterate_names : List String)
    (enum_start : Option Int) (array_iterable : Option (List Value)) (s : σ) :
    Except PyError (σ × List Value) :=
  let init_iter_args := get_state s
  match assert_for_loop_inputs init_iter_args iterate_names with
  | .error e => .error e
  | .ok _ =>
    match catalyst_for_loop start stop step
        (catalyst_loop_body body_fn get_state set_state enum_start array_iterable)
        init_iter_args s with
    | .error e => .error e
    | .ok (s2, final_iter_args) =>
      match assert_for_loop_results init_iter_args final_iter_args iterate_names with
      | .error e => .error e
      | .ok _ => .ok (s2, final_iter_args)

/-- The plain Python for loop: invoke the body once per element, in order. -/
def native_for {σ : Type} (body_fn : Value → σ → Except PyError σ) :
    List Value → σ → Except PyError σ
  | [], s => .ok s
  | e :: rest, s =>
    match body_fn e s with
    | .error er => .error er
    | .ok s2 => native_for body_fn rest s2

/-- `_call_python_for`: fallback to a Python implementation of for loops —
iterate the original iteration target natively and capture the final state. -/
def _call_python_for {σ : Type} (body_fn : Value → σ → Except PyError σ)
    (get_state : σ → List Value) (target : IterTarget) (s : σ) :
    Except PyError (σ × List Value) :=
  match nativeIter target with
  | .error e => .error e
  | .ok elems =>
    match native_for body_fn elems s with
    | .error e => .error e
    | .ok s2 => .ok (s2, get_state s2)

/-- A record of an AutoGraph source map: `function_name` plus the original
location and source text. -/
structure MapEntry where
  function_name : String
  filename : String
  lineno : Int
  source_code_line : String
deriving DecidableEq, Repr

/-- A source map keyed by `LineLocation(filename, lineno)`. -/
abbrev SourceMap := List ((String × Int) × MapEntry)

/-- What a frame on the active call stack contributes to the source-map search
of `get_source_code_info`: a `converted_call` frame with a `converted_f` local
(`none` meaning the `ag_source_map` attribute access raises, which the search
swallows), a frame whose `self` is a `qml.QNode` or a `catalyst.QJIT`
(likewise), or any other frame, which the search skips. -/
inductive WalkFrame where
  | convertedCall (m : Option SourceMap) : WalkFrame
  | qnodeSelf (m : Option SourceMap) : WalkFrame
  | qjitSelf (m : Option SourceMap) : WalkFrame
  | other : WalkFrame

/-- The stack walk of `get_source_code_info`: the first frame matching one of
the recognized shapes ends the search; an exception while reading its source
map is swallowed, leaving no source map found. -/
def findSourceMap : List WalkFrame → Option SourceMap
  | [] => none
  | .convertedCall m :: _ => m
  | .qnodeSelf m :: _ => m
  | .qjitSelf m :: _ => m
  | .other :: rest => findSourceMap rest

/-- The frame object passed to `get_source_code_info` as `tb_frame`.
`inspect.stack()` entries (what both call sites in `for_stmt` pass) are
`inspect.FrameInfo` objects, which expose `filename`, `lineno` and `function`
but have no `name` or `line` attribute — accessing those raises
`AttributeError`. A `traceback.FrameSummary` exposes `filename`, `lineno`,
`name` and `line` (the latter possibly `None`). -/
inductive TbFrame where
  | frameInfo (filename : String) (lineno : Int) (function : String) : TbFrame
  | frameSummary (filename : String) (lineno : Int) (name : String)
      (line : Option String) : TbFrame
deriving DecidableEq, Repr

/-- `tb_frame.filename` (present on both frame kinds). -/
def TbFrame.filename : TbFrame → String
  | .frameInfo f _ _ => f
  | .frameSummary f _ _ _ => f

/-- `tb_frame.lineno` (present on both frame kinds). -/
def TbFrame.lineno : TbFrame → Int
  | .frameInfo _ l _ => l
  | .frameSummary _ l _ _ => l

/-- Python `f-string` of an optional line: `None` prints as the text None. -/
def pyFormatLine : Option String → String
  | none => "None"
  | some l => l

/-- Message of the `AttributeError` raised by `tb_frame.name` on a
`FrameInfo`. -/
def frameInfoNameMsg : String := "FrameInfo object has no attribute name"

/-- The location block built by `get_source_code_info`. -/
def format_info (filename : String) (lineno : Int)
    (function_name source_code : String) : String :=
  "  File \"" ++ filename ++ "\", line " ++ toString lineno ++ ", in "
    ++ function_name ++ "\n    " ++ source_code ++ "\n"

/-- `get_source_code_info`: walk the call stack for a source map; on a hit for
the target frame's location use the mapped original location and source text;
otherwise fall back to the raw frame's own data — which, for the
`inspect.FrameInfo` frames the call sites pass, accesses the missing `name`
attribute and raises `AttributeError`. -/
def get_source_code_info (stack : List WalkFrame) (tb_frame : TbFrame) :
    Except PyError String :=
  let ag_source_map := findSourceMap stack
  let loc := (tb_frame.filename, tb_frame.lineno)
  match ag_source_map.bind (fun m => m.lookup loc) with
  | some entry =>
    .ok (format_info entry.filename entry.lineno entry.function_name
      entry.source_code_line.trim)
  | none =>
    match tb_frame with
    | .frameSummary filename lineno name line =>
      .ok (format_info filename lineno name (pyFormatLine line))
    | .frameInfo _ _ _ => .error (.attributeError frameInfoNameMsg)

/-- The Iteration Target Classifier embedded in `for_stmt` (lines 243-262):
produce `(start, stop, step, enum_start, iteration_array, fallback)`.
A `CRange` contributes its raw triple; a `CEnumerate` or plain sequence calls
`len()` (whose `TypeError` propagates) and attempts materialization, setting
the fallback flag on failure. -/
def classify (target : IterTarget) :
    Except PyError (Int × Int × Int × Option Int × Option (List Value) × Bool) :=
  match target with
  | .crange a b c => .ok (a, b, c, none, none, false)
  | .cenum inner sidx =>
    match pyLen inner with
    | .error e => .error e
    | .ok n =>
      match asarray? inner with
      | some arr => .ok (0, n, 1, some sidx, some arr, false)
      | none => .ok (0, n, 1, some sidx, none, true)
  | .seq q =>
    match pyLen q with
    | .error e => .error e
    | .ok n =>
      match asarray? q with
      | some arr => .ok (0, n, 1, none, some arr, false)
      | none => .ok (0, n, 1, none, none, true)

/-- The Python-loop fallback block of `for_stmt`: restore the pre-loop state,
iterate the original target natively, and restore the captured result tuple,
reporting how many fallback warnings were emitted on the way here. -/
def python_fallback {σ : Type} (body_fn : Value → σ → Except PyError σ)
    (get_state : σ → List Value) (set_state : List Value → σ → σ)
    (target : IterTarget) (init_state : List Value) (s : σ) (warns : Nat) :
    Except PyError (σ × Nat) :=
  match _call_python_for body_fn get_state target (set_state init_state s) with
  | .error e => .error e
  | .ok (s2, results) => .ok (set_state results s2, warns)

/-- The body of `for_stmt` after the loop-guard assertion. The configuration
globals `catalyst.autograph_strict_conversion` and
`catalyst.autograph_ignore_fallbacks` are the `strict` and `ignore_fallbacks`
parameters; the active call stack consulted by the diagnostics calls is the
`stack`/`tb` parameters. The result carries the number of fallback warnings
emitted (`warnings.warn` is called once, before falling back after a caught
tracing exception, unless suppressed). On a caught tracing exception the code
restores the pre-loop tracked state before falling back; state mutations of
the failed attempt beyond the tracked variables are not modelled. -/
def for_stmt_core {σ : Type} (strict ignore_fallbacks : Bool)
    (stack : List WalkFrame) (tb : TbFrame) (iteration_target : IterTarget)
    (body_fn : Value → σ → Except PyError σ)
    (get_state : σ → List Value) (set_state : List Value → σ → σ)
    (_symbol_names iterate_names : List String) (s : σ) : Except PyError (σ × Nat) :=
  let init_state := get_state s
  match classify iteration_target with
  | .error e => .error e
  | .ok (start, stop, step, enum_start, iteration_array, fallback) =>
    if strict && fallback then
      match get_source_code_info stack tb with
      | .error e => .error e
      | .ok info =>
        .error (.autoGraph (.strictConversion (pyRepr iteration_target) info))
    else if fallback then
      python_fallback body_fn get_state set_state iteration_target init_state s 0
    else
      match _call_catalyst_for start stop step body_fn get_state set_state
          iterate_names enum_start iteration_array (set_state init_state s) with
      | .ok (s2, results) => .ok (set_state results s2, 0)
      | .error e =>
        if strict then .error e
        else
          match get_source_code_info stack tb with
          | .error e2 => .error e2
          | .ok _info =>
            python_fallback body_fn get_state set_state iteration_target
              init_state s (if ignore_fallbacks then 0 else 1)

/-- `for_stmt`: the AutoGraph for statement. `assert _extra_test is None`
raises `AssertionError` for a non-absent loop guard; otherwise classification,
the graph-native attempt, validation and the fallback proceed
(`for_stmt_core`). -/
def for_stmt {σ : Type} (strict ignore_fallbacks : Bool)
    (stack : List WalkFrame) (tb : TbFrame) (iteration_target : IterTarget)
    (extra_test : Option Unit) (body_fn : Value → σ → Except PyError σ)
    (get_state : σ → List Value) (set_state : List Value → σ → σ)
    (symbol_names iterate_names : List String) (s : σ) : Except PyError (σ × Nat) :=
  match extra_test with
  | some _ => .error .assertionError
  | none =>
    for_stmt_core strict ignore_fallbacks stack tb iteration_target body_fn
      get_state set_state symbol_names iterate_names s

/-- The canonical instantiation of the caller's capture closure: the program
state is exactly the tracked-variable tuple. -/
def stGet : List Value → List Value := id

/-- The canonical instantiation of the caller's restore closure. -/
def stSet : List Value → List Value → List Value := fun v _ => v

/-- An error produced by the loop-input validator; every such error names a
variable (either the undefined sentinel's symbol name or the iterate name). -/
def namesLoopVar : PyError → Bool
  | .autoGraph (.loopUninitializedVar _) => true
  | .autoGraph (.loopNonTraceableVar _ _) => true
  | _ => false

lemma pair_mem_zip_of_get2 {α β : Type} :
    ∀ (l1 : List α) (l2 : List β) (k : Nat) (a : α) (b : β),
      l1.get? k = some a → l2.get? k = some b → (a, b) ∈ l1.zip l2 := by
  intro l1
  induction l1 with
  | nil => intro l2 k a b h _; simp at h
  | cons x xs ih =>
    intro l2 k a b h1 h2
    cases l2 with
    | nil => simp at h2
    | cons y ys =>
      cases k with
      | zero =>
        simp only [List.get?_cons_zero, Option.some.injEq] at h1 h2
        simp [List.zip_cons_cons, h1, h2]
      | succ k =>
        simp only [List.get?_cons_succ] at h1 h2
        exact List.mem_cons_of_mem _ (ih ys k a b h1 h2)

/-- Running the bounded-loop primitive with the range-style loop body on the
canonical state is the plain fold of the user body over the index values. -/
lemma runLoop_range_body (f : Value → List Value → Except PyError (List Value)) :
    ∀ (is : List Int) (s : List Value),
      runLoop (catalyst_loop_body f stGet stSet none none) is s s
        = match native_for f (is.map Value.intV) s with
          | .ok s2 => .ok (s2, s2)
          | .error e => .error e := by
  intro is
  induction is with
  | nil => intro s; rfl
  | cons i rest ih =>
    intro s
    simp only [runLoop, catalyst_loop_body, stGet, stSet, id_eq, List.map, native_for]
    cases hf : f (.intV i) s with
    | error e => simp
    | ok s2 => simpa using ih s2

/-- Running the bounded-loop primitive with the enumeration-style loop body on
the canonical state is the plain fold of the user body over the
index-plus-offset/element pairs. -/
lemma runLoop_enum_body (f : Value → List Value → Except PyError (List Value))
    (sidx : Int) (arr : List Value) :
    ∀ (is : List Int) (s : List Value),
      runLoop (catalyst_loop_body f stGet stSet (some sidx) (some arr)) is s s
        = match native_for f
            (is.map (fun i => Value.pairV (.intV (i + sidx)) (jnp_index arr i))) s with
          | .ok s2 => .ok (s2, s2)
          | .error e => .error e := by
  intro is
  induction is with
  | nil => intro s; rfl
  | cons i rest ih =>
    intro s
    simp only [runLoop, catalyst_loop_body, stGet, stSet, id_eq, List.map, native_for]
    cases hf : f (.pairV (.intV (i + sidx)) (jnp_index arr i)) s with
    | error e => simp
    | ok s2 => simpa using ih s2

lemma stGet_apply (s : List Value) : stGet s = s := rfl

lemma stSet_apply (v s : List Value) : stSet v s = v := rfl

lemma rangeCount_zero_one (n : Nat) : rangeCount 0 n 1 = n := by
  simp only [rangeCount]
  norm_num

lemma rangeList_zero_one (n : Nat) :
    rangeList 0 (n : Int) 1 = (List.range n).map Int.ofNat := by
  simp only [rangeList, rangeCount_zero_one]
  apply List.map_congr_left
  intro k _
  simp

lemma jnp_index_nat (es : List Value) (k : Nat) (hk : k < es.length) :
    jnp_index es (k : Int) = es.getD k (.obj "empty") := by
  simp only [jnp_index]
  have h1 : (if (k : Int) < 0 then (k : Int) + (es.length : Int) else (k : Int))
      = (k : Int) := by
    rw [if_neg]; omega
  rw [h1]
  have h2 : (max 0 (min (k : Int) ((es.length : Int) - 1))).toNat = k := by omega
  rw [h2]

/-- The element sequence fed to the user body by the graph-native enumeration
loop is exactly the native `enumerate` pair sequence. -/
lemma graph_enum_elems (sidx : Int) (es : List Value) :
    (rangeList 0 (es.length : Int) 1).map
        (fun i => Value.pairV (.intV (i + sidx)) (jnp_index es i))
      = enumElems sidx es := by
  rw [rangeList_zero_one, List.map_map, enumElems]
  apply List.map_congr_left
  intro k hk
  have hk2 : k < es.length := List.mem_range.mp hk
  simp only [Function.comp_apply, Int.ofNat_eq_coe, jnp_index_nat es k hk2]
  rw [Int.add_comm]

/-- C1: for a range-based loop whose body raises no tracing errors (the native
run of the body over the same range succeeds), and whose diagnostics lookup
succeeds, `for_stmt` over `range(a, b, c)` with carried variables produces the
same final restored state as a native Python for loop over the same range, for
every triple with a nonzero step — including empty ranges and negative steps —
whether the graph-native attempt succeeds or ends in a validated fallback. -/
theorem for_stmt_range_matches_native
    (ig : Bool) (stack : List WalkFrame) (tb : TbFrame) (a b c : Int)
    (f : Value → List Value → Except PyError (List Value))
    (names inames : List String) (init sN : List Value) (info : String)
    (hc : c ≠ 0)
    (hdiag : get_source_code_info stack tb = .ok info)
    (hN : native_for f ((rangeList a b c).map Value.intV) init = .ok sN) :
    ∃ w, for_stmt false ig stack tb (.crange a b c) none f stGet stSet names inames init
      = .ok (sN, w) := by
  have hpyth : ∀ w, python_fallback f stGet stSet (IterTarget.crange a b c) init init w
      = .ok (sN, w) := by
    intro w
    simp only [python_fallback, _call_python_for, nativeIter, stGet, stSet, id_eq]
    rw [if_neg hc]
    simp [hN]
  cases hin : assert_for_loop_inputs init inames with
  | error e =>
    refine ⟨if ig then 0 else 1, ?_⟩
    have hG : _call_catalyst_for a b c f stGet stSet inames none none init = .error e := by
      simp [_call_catalyst_for, stGet_apply, hin]
    simp [for_stmt, for_stmt_core, classify, stGet_apply, stSet_apply, hG, hdiag, hpyth]
  | ok u =>
    have hrun : catalyst_for_loop a b c (catalyst_loop_body f stGet stSet none none)
        init init = .ok (sN, sN) := by
      simp only [catalyst_for_loop]
      rw [runLoop_range_body, hN]
    cases hres : assert_for_loop_results init sN inames with
    | ok u2 =>
      refine ⟨0, ?_⟩
      have hG : _call_catalyst_for a b c f stGet stSet inames none none init
          = .ok (sN, sN) := by
        simp [_call_catalyst_for, stGet_apply, hin, hrun, hres]
      simp [for_stmt, for_stmt_core, classify, stGet_apply, stSet_apply, hG]
    | error e =>
      refine ⟨if ig then 0 else 1, ?_⟩
      have hG : _call_catalyst_for a b c f stGet stSet inames none none init
          = .error e := by
        simp [_call_catalyst_for, stGet_apply, hin, hrun, hres]
      simp [for_stmt, for_stmt_core, classify, stGet_apply, stSet_apply, hG, hdiag, hpyth]

/-- C1 witness: a concrete negative-step range loop agrees with the native
loop. -/
theorem for_stmt_range_matches_native_witness :
    ∃ w, for_stmt false false [WalkFrame.convertedCall (some [])]
        (.frameSummary "f.py" 1 "g" none) (.crange 3 0 (-1)) none
        (fun v _ => .ok [v]) stGet stSet ["x"] ["x"] [Value.intV 9]
      = .ok ([Value.intV 1], w) :=
  for_stmt_range_matches_native false [WalkFrame.convertedCall (some [])]
    (.frameSummary "f.py" 1 "g" none) 3 0 (-1) (fun v _ => .ok [v]) ["x"] ["x"]
    [Value.intV 9] [Value.intV 1] (format_info "f.py" 1 "g" "None")
    (by decide) rfl rfl

/-- C2: for every predicate and every pair of branch callables that (run from
the shared entry state) succeed with result tuples of the tracked arity in
which every variable is defined, `if_stmt` restores exactly the state the true
branch produces when the predicate is true and exactly the state the false
branch produces when it is false — equivalence with a native if/else. -/
theorem if_stmt_matches_native
    (pred : Bool) (T F : List Value → Except PyError (List Value))
    (names : List String) (n : Nat) (s0 sT sF : List Value)
    (hT : T s0 = .ok sT) (hF : F s0 = .ok sF)
    (hlT : sT.length = names.length) (hlF : sF.length = names.length)
    (huT : ∀ v ∈ sT, v.isUndef = false) (huF : ∀ v ∈ sF, v.isUndef = false) :
    if_stmt pred T F stGet stSet names n s0 = .ok (if pred then sT else sF) := by
  have haT : assert_results sT names = .ok sT := by
    simp only [assert_results, hlT]
    rw [if_neg (by simp)]
    have hfT : (sT.zip names).find? (fun rv => rv.1.isUndef) = none := by
      rw [List.find?_eq_none]
      intro x hx
      obtain ⟨a, b⟩ := x
      simp [huT a (List.of_mem_zip hx).1]
    rw [hfT]
  have haF : assert_results sF names = .ok sF := by
    simp only [assert_results, hlF]
    rw [if_neg (by simp)]
    have hfF : (sF.zip names).find? (fun rv => rv.1.isUndef) = none := by
      rw [List.find?_eq_none]
      intro x hx
      obtain ⟨a, b⟩ := x
      simp [huF a (List.of_mem_zip hx).1]
    rw [hfF]
  have hbT : if_branch T stGet stSet names s0 s0 = .ok (sT, sT) := by
    simp [if_branch, stGet_apply, stSet_apply, hT, haT]
  have hbF : if_branch F stGet stSet names s0 sT = .ok (sF, sF) := by
    simp [if_branch, stGet_apply, stSet_apply, hF, haF]
  simp [if_stmt, catalyst_cond, stGet_apply, stSet_apply, hbT, hbF]

/-- C2 witness: a concrete conditional restores the true branch's state. -/
theorem if_stmt_matches_native_witness :
    if_stmt true (fun _ => .ok [Value.intV 1]) (fun _ => .ok [Value.intV 2])
        stGet stSet ["x"] 1 [Value.intV 0] = .ok [Value.intV 1] := by
  have h := if_stmt_matches_native true (fun _ => .ok [Value.intV 1])
    (fun _ => .ok [Value.intV 2]) ["x"] 1 [Value.intV 0] [Value.intV 1]
    [Value.intV 2] rfl rfl rfl rfl (by decide) (by decide)
  simpa using h

lemma absty_eq (t u : AbsTy) (h1 : t.dtype = u.dtype) (h2 : t.shape = u.shape) :
    t = u := by
  cases t; cases u; simp_all

/-- If all zipped input/output pairs abstractify and some pair's signatures
differ, the result validator stops at the first differing pair and raises the
type-instability error naming that iterate and reporting expected (output)
versus got (input) signatures. -/
lemma assert_results_aux_mismatch :
    ∀ (l : List (Value × Value)) (k : Nat) (inames : List String),
      (∀ p ∈ l, (shaped_abstractify p.1).isOk = true) →
      (∀ p ∈ l, (shaped_abstractify p.2).isOk = true) →
      k + l.length ≤ inames.length →
      (∃ p ∈ l, ∃ ti tout, shaped_abstractify p.1 = .ok ti ∧
        shaped_abstractify p.2 = .ok tout ∧ ti ≠ tout) →
      ∃ i nm ti tout, inames.get? i = some nm ∧ ti ≠ tout ∧
        assert_for_loop_results_aux k l inames
          = .error (.autoGraph (.loopTypeInstability nm tout ti)) := by
  intro l
  induction l with
  | nil => intro k inames _ _ _ hmis; simp at hmis
  | cons hd rest ih =>
    intro k inames hok1 hok2 hlen hmis
    obtain ⟨vi, vo⟩ := hd
    have h1 := hok1 (vi, vo) (by simp)
    have h2 := hok2 (vi, vo) (by simp)
    cases hti : shaped_abstractify vi with
    | error e => rw [hti] at h1; simp [Except.isOk, Except.toBool] at h1
    | ok ti =>
      cases hto : shaped_abstractify vo with
      | error e => rw [hto] at h2; simp [Except.isOk, Except.toBool] at h2
      | ok tout =>
        by_cases hne : ti.dtype ≠ tout.dtype ∨ ti.shape ≠ tout.shape
        · have hk : k < inames.length := by
            simp only [List.length_cons] at hlen; omega
          obtain ⟨nm, hnm⟩ : ∃ nm, inames.get? k = some nm := by
            refine ⟨inames.get ⟨k, hk⟩, ?_⟩
            exact List.get?_eq_some.mpr ⟨hk, rfl⟩
          refine ⟨k, nm, ti, tout, hnm, ?_, ?_⟩
          · intro hEq; rw [hEq] at hne
            rcases hne with h | h <;> exact h rfl
          · simp only [assert_for_loop_results_aux, hti, hto]
            rw [if_pos hne, hnm]
        · have hstep : assert_for_loop_results_aux k ((vi, vo) :: rest) inames
              = assert_for_loop_results_aux (k + 1) rest inames := by
            simp only [assert_for_loop_results_aux, hti, hto]
            rw [if_neg hne]
          push_neg at hne
          have hmis2 : ∃ p ∈ rest, ∃ ti tout, shaped_abstractify p.1 = .ok ti ∧
              shaped_abstractify p.2 = .ok tout ∧ ti ≠ tout := by
            obtain ⟨p, hp, ti2, to2, hp1, hp2, hpne⟩ := hmis
            rcases List.mem_cons.mp hp with hhd | htl
            · exfalso
              subst hhd
              rw [hti] at hp1; rw [hto] at hp2
              injection hp1 with hp1; injection hp2 with hp2
              subst hp1; subst hp2
              exact hpne (absty_eq _ _ hne.1 hne.2)
            · exact ⟨p, htl, ti2, to2, hp1, hp2, hpne⟩
          obtain ⟨i, nm, ti2, to2, hnm, hne2, hres⟩ :=
            ih (k + 1) inames (fun p hp => hok1 p (List.mem_cons_of_mem _ hp))
              (fun p hp => hok2 p (List.mem_cons_of_mem _ hp))
              (by simp only [List.length_cons] at hlen; omega) hmis2
          exact ⟨i, nm, ti2, to2, hnm, hne2, by rw [hstep]; exact hres⟩

/-- C3 (amended): when graph-native lowering runs to completion but some
loop-carried variable's exit (shape, dtype) differs from its entry signature,
`for_stmt` raises a type-instability error naming the first such variable and
reporting expected versus actual types; with strict-conversion mode enabled
the error propagates unchanged to the caller, while with strict mode disabled
it is caught, one fallback warning is emitted, and the loop completes via
native Python iteration. -/
theorem for_stmt_type_instability
    {ig : Bool} {stack : List WalkFrame} {tb : TbFrame} {target : IterTarget}
    {f : Value → List Value → Except PyError (List Value)}
    {names inames : List String} {init s2 final sf rf : List Value}
    {start stop step : Int} {es : Option Int} {arr : Option (List Value)}
    {info : String}
    (hcl : classify target = .ok (start, stop, step, es, arr, false))
    (hin : assert_for_loop_inputs init inames = .ok ())
    (hloop : catalyst_for_loop start stop step
        (catalyst_loop_body f stGet stSet es arr) init init = .ok (s2, final))
    (hl1 : init.length = inames.length) (hl2 : final.length = inames.length)
    (hok1 : ∀ v ∈ init, (shaped_abstractify v).isOk = true)
    (hok2 : ∀ v ∈ final, (shaped_abstractify v).isOk = true)
    (hmis : ∃ kk vi vo ti tout, init.get? kk = some vi ∧ final.get? kk = some vo ∧
        shaped_abstractify vi = .ok ti ∧ shaped_abstractify vo = .ok tout ∧ ti ≠ tout)
    (hdiag : get_source_code_info stack tb = .ok info)
    (hpy : _call_python_for f stGet target init = .ok (sf, rf)) :
    ∃ i nm ti tout, inames.get? i = some nm ∧ ti ≠ tout ∧
      assert_for_loop_results init final inames
        = .error (.autoGraph (.loopTypeInstability nm tout ti)) ∧
      for_stmt true ig stack tb target none f stGet stSet names inames init
        = .error (.autoGraph (.loopTypeInstability nm tout ti)) ∧
      for_stmt false ig stack tb target none f stGet stSet names inames init
        = .ok (rf, if ig then 0 else 1) := by
  have hzlen : (init.zip final).length ≤ inames.length := by
    rw [List.length_zip]; omega
  have hzok1 : ∀ p ∈ init.zip final, (shaped_abstractify p.1).isOk = true := by
    intro p hp; obtain ⟨a, b⟩ := p
    exact hok1 a (List.of_mem_zip hp).1
  have hzok2 : ∀ p ∈ init.zip final, (shaped_abstractify p.2).isOk = true := by
    intro p hp; obtain ⟨a, b⟩ := p
    exact hok2 b (List.of_mem_zip hp).2
  have hzmis : ∃ p ∈ init.zip final, ∃ ti tout, shaped_abstractify p.1 = .ok ti ∧
      shaped_abstractify p.2 = .ok tout ∧ ti ≠ tout := by
    obtain ⟨kk, vi, vo, ti, tout, hgi, hgo, hati, hato, hne⟩ := hmis
    exact ⟨(vi, vo), pair_mem_zip_of_get2 init final kk vi vo hgi hgo,
      ti, tout, hati, hato, hne⟩
  obtain ⟨i, nm, ti, tout, hnm, hne, hres⟩ :=
    assert_results_aux_mismatch (init.zip final) 0 inames hzok1 hzok2
      (by omega) hzmis
  have hres2 : assert_for_loop_results init final inames
      = .error (.autoGraph (.loopTypeInstability nm tout ti)) := hres
  have hG : _call_catalyst_for start stop step f stGet stSet inames es arr init
      = .error (.autoGraph (.loopTypeInstability nm tout ti)) := by
    simp [_call_catalyst_for, stGet_apply, hin, hloop, hres2]
  refine ⟨i, nm, ti, tout, hnm, hne, hres2, ?_, ?_⟩
  · simp [for_stmt, for_stmt_core, hcl, stGet_apply, stSet_apply, hG]
  · simp [for_stmt, for_stmt_core, hcl, stGet_apply, stSet_apply, hG, hdiag,
      python_fallback, hpy]

/-- C3 counterexample: with strict-conversion mode disabled, a loop whose
carried variable changes dtype across the iteration does not propagate the
type-instability error to the caller — `for_stmt` completes via the Python
fallback (with one warning), contradicting the claim that the error is fatal
regardless of strict-conversion mode. -/
theorem for_stmt_type_instability_not_fatal_nonstrict :
    for_stmt false false [WalkFrame.other] (.frameSummary "f.py" 1 "g" none)
        (.crange 0 1 1) none (fun _ _ => .ok [Value.boolV true]) stGet stSet
        ["x"] ["x"] [Value.intV 0]
      = .ok ([Value.boolV true], 1) := rfl

/-- C3 witness: the amended behaviour at a concrete dtype-changing loop. -/
theorem for_stmt_type_instability_witness :
    ∃ i nm ti tout, (["x"].get? i = some nm) ∧ ti ≠ tout ∧
      assert_for_loop_results [Value.intV 0] [Value.boolV true] ["x"]
        = .error (.autoGraph (.loopTypeInstability nm tout ti)) ∧
      for_stmt true false [WalkFrame.other] (.frameSummary "f.py" 1 "g" none)
          (.crange 0 1 1) none (fun _ _ => .ok [Value.boolV true]) stGet stSet
          ["x"] ["x"] [Value.intV 0]
        = .error (.autoGraph (.loopTypeInstability nm tout ti)) ∧
      for_stmt false false [WalkFrame.other] (.frameSummary "f.py" 1 "g" none)
          (.crange 0 1 1) none (fun _ _ => .ok [Value.boolV true]) stGet stSet
          ["x"] ["x"] [Value.intV 0]
        = .ok ([Value.boolV true], 1) :=
  for_stmt_type_instability rfl rfl rfl rfl rfl (by decide) (by decide)
    ⟨0, Value.intV 0, Value.boolV true, ⟨.intTy, []⟩, ⟨.boolTy, []⟩,
      rfl, rfl, rfl, rfl, by decide⟩ rfl rfl

/-- C4: with strict-conversion mode disabled, a generic-iterable (len-capable)
iteration target whose elements cannot be materialized into an array makes
`for_stmt` fall back to native Python iteration silently — no exception, zero
warnings — producing exactly the plain Python for loop's outcome. -/
theorem for_stmt_silent_fallback
    (ig : Bool) (stack : List WalkFrame) (tb : TbFrame) (es : List Value)
    (f : Value → List Value → Except PyError (List Value))
    (names inames : List String) (init : List Value)
    (hfail : asarray? (.list es) = none) :
    for_stmt false ig stack tb (.seq (.list es)) none f stGet stSet names inames init
      = (native_for f es init).map (fun s2 => (s2, 0)) := by
  simp only [for_stmt, for_stmt_core, classify, pyLen, hfail, Bool.false_and,
    if_false, if_true, python_fallback, _call_python_for, nativeIter,
    PySeq.elems, stGet_apply, stSet_apply]
  cases hn : native_for f es init with
  | error e => simp [Except.map]
  | ok s2 => simp [Except.map, stSet_apply]

/-- C4 witness: a mixed-type list falls back silently with the native
outcome. -/
theorem for_stmt_silent_fallback_witness :
    for_stmt false true [] (.frameInfo "f" 1 "g")
        (.seq (.list [Value.obj "str", Value.intV 1])) none (fun _ s => .ok s)
        stGet stSet [] [] []
      = .ok ([], 0) :=
  (for_stmt_silent_fallback true [] (.frameInfo "f" 1 "g")
    [Value.obj "str", Value.intV 1] (fun _ s => .ok s) [] [] [] rfl).trans rfl

/-- C5: with strict-conversion mode enabled `for_stmt` never falls back:
a classification failure raises the strict-conversion `AutoGraphError` carrying
the recovered source location, and any exception raised while attempting the
graph-native loop is re-raised unchanged. -/
theorem for_stmt_strict_mode :
    (∀ (σ : Type) (ig : Bool) (stack : List WalkFrame) (tb : TbFrame)
        (target : IterTarget) (f : Value → σ → Except PyError σ)
        (get_state : σ → List Value) (set_state : List Value → σ → σ)
        (names inames : List String) (s : σ) (start stop step : Int)
        (es : Option Int) (info : String),
      classify target = .ok (start, stop, step, es, none, true) →
      get_source_code_info stack tb = .ok info →
      for_stmt true ig stack tb target none f get_state set_state names inames s
        = .error (.autoGraph (.strictConversion (pyRepr target) info)))
    ∧ (∀ (σ : Type) (ig : Bool) (stack : List WalkFrame) (tb : TbFrame)
        (target : IterTarget) (f : Value → σ → Except PyError σ)
        (get_state : σ → List Value) (set_state : List Value → σ → σ)
        (names inames : List String) (s : σ) (start stop step : Int)
        (es : Option Int) (arr : Option (List Value)) (e : PyError),
      classify target = .ok (start, stop, step, es, arr, false) →
      _call_catalyst_for start stop step f get_state set_state inames es arr
          (set_state (get_state s) s) = .error e →
      for_stmt true ig stack tb target none f get_state set_state names inames s
        = .error e) := by
  constructor
  · intro σ ig stack tb target f get_state set_state names inames s
      start stop step es info hcl hdiag
    simp [for_stmt, for_stmt_core, hcl, hdiag]
  · intro σ ig stack tb target f get_state set_state names inames s
      start stop step es arr e hcl hG
    simp [for_stmt, for_stmt_core, hcl, hG]

/-- C5 witness: a non-materializable list under strict mode raises the
strict-conversion error with the recovered location. -/
theorem for_stmt_strict_mode_witness :
    for_stmt true false [] (.frameSummary "f.py" 1 "g" none)
        (.seq (.list [Value.obj "str"])) none
        (fun (_ : Value) (s : List Value) => .ok s) stGet stSet [] [] []
      = .error (.autoGraph (.strictConversion
          (pyRepr (.seq (.list [Value.obj "str"])))
          (format_info "f.py" 1 "g" "None"))) :=
  for_stmt_strict_mode.1 (List Value) false [] (.frameSummary "f.py" 1 "g" none)
    (.seq (.list [Value.obj "str"])) (fun _ s => .ok s) stGet stSet [] [] []
    0 1 1 none (format_info "f.py" 1 "g" "None") rfl rfl

/-- If some loop input is the `Undefined` sentinel, the input validator stops
with an error that names a variable (either the uninitialized-variable error at
the first undefined entry, or the non-traceable-type error at an earlier
non-JAX entry). -/
lemma assert_inputs_aux_undef :
    ∀ (l : List Value) (k : Nat) (inames : List String),
      k + l.length ≤ inames.length →
      (∃ v ∈ l, v.isUndef = true) →
      ∃ e, namesLoopVar e = true ∧
        assert_for_loop_inputs_aux k l inames = .error e := by
  intro l
  induction l with
  | nil => intro k inames _ h; simp at h
  | cons x rest ih =>
    intro k inames hlen hund
    have hrest : (∃ v ∈ rest, v.isUndef = true) → x.isUndef = false →
        ∃ e, namesLoopVar e = true ∧
          assert_for_loop_inputs_aux k (x :: rest) inames = .error e := by
      intro hr hx
      have hstep := ih (k + 1) inames
        (by simp only [List.length_cons] at hlen; omega) hr
      obtain ⟨e, he1, he2⟩ := hstep
      cases x with
      | undefV v => simp [Value.isUndef] at hx
      | intV n => exact ⟨e, he1, by simpa [assert_for_loop_inputs_aux, shaped_abstractify] using he2⟩
      | boolV b => exact ⟨e, he1, by simpa [assert_for_loop_inputs_aux, shaped_abstractify] using he2⟩
      | arrV d sh => exact ⟨e, he1, by simpa [assert_for_loop_inputs_aux, shaped_abstractify] using he2⟩
      | pairV a b =>
        have hk : k < inames.length := by
          simp only [List.length_cons] at hlen; omega
        obtain ⟨nm, hnm⟩ : ∃ nm, inames.get? k = some nm := by
          refine ⟨inames.get ⟨k, hk⟩, List.get?_eq_some.mpr ⟨hk, rfl⟩⟩
        have hnm2 : inames[k]? = some nm := by
          rw [← List.get?_eq_getElem?]; exact hnm
        exact ⟨.autoGraph (.loopNonTraceableVar nm "tuple"), rfl,
          by simp [assert_for_loop_inputs_aux, shaped_abstractify, hnm2, pyTypeName]⟩
      | obj t =>
        have hk : k < inames.length := by
          simp only [List.length_cons] at hlen; omega
        obtain ⟨nm, hnm⟩ : ∃ nm, inames.get? k = some nm := by
          refine ⟨inames.get ⟨k, hk⟩, List.get?_eq_some.mpr ⟨hk, rfl⟩⟩
        have hnm2 : inames[k]? = some nm := by
          rw [← List.get?_eq_getElem?]; exact hnm
        exact ⟨.autoGraph (.loopNonTraceableVar nm t), rfl,
          by simp [assert_for_loop_inputs_aux, shaped_abstractify, hnm2, pyTypeName]⟩
    cases x with
    | undefV v =>
      exact ⟨.autoGraph (.loopUninitializedVar v), rfl, rfl⟩
    | intV n =>
      obtain ⟨v, hv, hvu⟩ := hund
      rcases List.mem_cons.mp hv with h | h
      · subst h; simp [Value.isUndef] at hvu
      · exact hrest ⟨v, h, hvu⟩ rfl
    | boolV b =>
      obtain ⟨v, hv, hvu⟩ := hund
      rcases List.mem_cons.mp hv with h | h
      · subst h; simp [Value.isUndef] at hvu
      · exact hrest ⟨v, h, hvu⟩ rfl
    | arrV d sh =>
      obtain ⟨v, hv, hvu⟩ := hund
      rcases List.mem_cons.mp hv with h | h
      · subst h; simp [Value.isUndef] at hvu
      · exact hrest ⟨v, h, hvu⟩ rfl
    | pairV a b =>
      obtain ⟨v, hv, hvu⟩ := hund
      rcases List.mem_cons.mp hv with h | h
      · subst h; simp [Value.isUndef] at hvu
      · exact hrest ⟨v, h, hvu⟩ rfl
    | obj t =>
      obtain ⟨v, hv, hvu⟩ := hund
      rcases List.mem_cons.mp hv with h | h
      · subst h; simp [Value.isUndef] at hvu
      · exact hrest ⟨v, h, hvu⟩ rfl

/-- C6: an `Undefined` sentinel never reaches the backend tracing primitive as
a branch result or loop-carried value. First conjunct: when exactly one branch
leaves a tracked variable undefined while the other assigns it, `if_stmt`
raises an `AutoGraphError` naming an undefined variable (the branch validator
stops the value before it becomes a conditional result). Second conjunct: when
any loop-carried value is `Undefined` at loop entry, `_call_catalyst_for`
raises an error naming a variable — for every loop body, so the value is
stopped before the bounded-loop primitive is invoked. -/
theorem undefined_never_reaches_backend :
    (∀ (pred : Bool) (T F : List Value → Except PyError (List Value))
        (names : List String) (n : Nat) (s0 sT sF : List Value),
      T s0 = .ok sT → F s0 = .ok sF →
      sT.length = names.length → sF.length = names.length →
      (∃ k v, (sT.get? k = some (.undefV v) ∧
          ∃ w2, sF.get? k = some w2 ∧ w2.isUndef = false)
        ∨ (sF.get? k = some (.undefV v) ∧
          ∃ w2, sT.get? k = some w2 ∧ w2.isUndef = false)) →
      ∃ u, if_stmt pred T F stGet stSet names n s0
        = .error (.autoGraph (.branchUndefinedVar u)))
    ∧ (∀ (σ : Type) (start stop step : Int) (get_state : σ → List Value)
        (set_state : List Value → σ → σ) (inames : List String) (s : σ),
      (get_state s).length = inames.length →
      (∃ v ∈ get_state s, v.isUndef = true) →
      ∃ e, namesLoopVar e = true ∧
        assert_for_loop_inputs (get_state s) inames = .error e ∧
        ∀ (f : Value → σ → Except PyError σ) (enum_start : Option Int)
          (array_iterable : Option (List Value)),
          _call_catalyst_for start stop step f get_state set_state inames
            enum_start array_iterable s = .error e) := by
  constructor
  · intro pred T F names n s0 sT sF hT hF hlT hlF hone
    cases hfT : (sT.zip names).find? (fun rv => rv.1.isUndef) with
    | some q =>
      have hq := List.find?_some hfT
      refine ⟨q.2, ?_⟩
      have hbT : if_branch T stGet stSet names s0 s0
          = .error (.autoGraph (.branchUndefinedVar q.2)) := by
        simp only [if_branch, stGet_apply, stSet_apply, hT, assert_results, hlT]
        rw [if_neg (by simp), hfT]
      simp [if_stmt, catalyst_cond, stGet_apply, stSet_apply, hbT]
    | none =>
      have hclean : ∀ v ∈ sT, v.isUndef = false := by
        intro v hv
        obtain ⟨k, hk⟩ := List.mem_iff_get?.mp hv
        have hk2 : k < sT.length := by
          by_contra hge
          rw [List.get?_eq_none.mpr (by omega)] at hk
          exact Option.noConfusion hk
        obtain ⟨nm, hnm⟩ : ∃ nm, names.get? k = some nm := by
          have : k < names.length := by omega
          exact ⟨names.get ⟨k, this⟩, List.get?_eq_some.mpr ⟨this, rfl⟩⟩
        have hmem := pair_mem_zip_of_get2 sT names k v nm hk hnm
        have := List.find?_eq_none.mp hfT (v, nm) hmem
        simpa using this
      have haT : assert_results sT names = .ok sT := by
        simp only [assert_results, hlT]
        rw [if_neg (by simp), hfT]
      have hbT : if_branch T stGet stSet names s0 s0 = .ok (sT, sT) := by
        simp [if_branch, stGet_apply, stSet_apply, hT, haT]
      obtain ⟨k, v, hone2⟩ := hone
      have hundF : ∃ q2, (sF.zip names).find? (fun rv => rv.1.isUndef) = some q2
          ∧ q2.1.isUndef = true := by
        have hFk : ∃ v2, sF.get? k = some v2 ∧ v2.isUndef = true := by
          rcases hone2 with ⟨hTk, _⟩ | ⟨hFk, _⟩
          · exfalso
            have := hclean _ (List.get?_mem hTk)
            simp [Value.isUndef] at this
          · exact ⟨.undefV v, hFk, rfl⟩
        obtain ⟨v2, hFk, hv2⟩ := hFk
        have hk2 : k < sF.length := by
          by_contra hge
          rw [List.get?_eq_none.mpr (by omega)] at hFk
          exact Option.noConfusion hFk
        obtain ⟨nm, hnm⟩ : ∃ nm, names.get? k = some nm := by
          have : k < names.length := by omega
          exact ⟨names.get ⟨k, this⟩, List.get?_eq_some.mpr ⟨this, rfl⟩⟩
        have hmem := pair_mem_zip_of_get2 sF names k v2 nm hFk hnm
        cases hfF : (sF.zip names).find? (fun rv => rv.1.isUndef) with
        | none =>
          exfalso
          have := List.find?_eq_none.mp hfF (v2, nm) hmem
          simp [hv2] at this
        | some q2 => exact ⟨q2, rfl, by simpa using List.find?_some hfF⟩
      obtain ⟨q2, hfF, _⟩ := hundF
      refine ⟨q2.2, ?_⟩
      have hbF : if_branch F stGet stSet names s0 sT
          = .error (.autoGraph (.branchUndefinedVar q2.2)) := by
        simp only [if_branch, stGet_apply, stSet_apply, hF, assert_results, hlF]
        rw [if_neg (by simp), hfF]
      simp [if_stmt, catalyst_cond, stGet_apply, stSet_apply, hbT, hbF]
  · intro σ start stop step get_state set_state inames s hlen hund
    obtain ⟨e, he1, he2⟩ := assert_inputs_aux_undef (get_state s) 0 inames
      (by omega) hund
    refine ⟨e, he1, he2, ?_⟩
    intro f enum_start array_iterable
    simp [_call_catalyst_for, assert_for_loop_inputs, he2]

/-- C6 witness: a concrete one-sided undefined branch result, and a concrete
undefined loop input stopped for every loop body. -/
theorem undefined_never_reaches_backend_witness :
    (∃ u, if_stmt true (fun _ => .ok [Value.intV 1]) (fun _ => .ok [Value.undefV "y"])
        stGet stSet ["x"] 1 ([Value.intV 0])
      = .error (.autoGraph (.branchUndefinedVar u)))
    ∧ (∃ e, namesLoopVar e = true ∧
        assert_for_loop_inputs (stGet [Value.undefV "z"]) ["z"] = .error e ∧
        ∀ (f : Value → List Value → Except PyError (List Value))
          (enum_start : Option Int) (array_iterable : Option (List Value)),
          _call_catalyst_for 0 1 1 f stGet stSet ["z"] enum_start array_iterable
            [Value.undefV "z"] = .error e) :=
  ⟨undefined_never_reaches_backend.1 true (fun _ => .ok [Value.intV 1])
      (fun _ => .ok [Value.undefV "y"]) ["x"] 1 [Value.intV 0] [Value.intV 1]
      [Value.undefV "y"] rfl rfl rfl rfl
      ⟨0, "y", Or.inr ⟨rfl, Value.intV 1, rfl, rfl⟩⟩,
    undefined_never_reaches_backend.2 (List Value) 0 1 1 stGet stSet ["z"]
      [Value.undefV "z"] rfl ⟨Value.undefV "z", by simp [stGet_apply], rfl⟩⟩

/-- C7: evaluation at the failing input. With a call stack exposing no source
map and the `inspect.FrameInfo` frame that `for_stmt` actually passes, the
fallback path of `get_source_code_info` accesses the missing `name` attribute
and raises `AttributeError` instead of returning the raw frame's location
block. -/
theorem get_source_code_info_raises_on_frameinfo :
    get_source_code_info [WalkFrame.other] (.frameInfo "user.py" 7 "fn")
      = .error (.attributeError frameInfoNameMsg) := rfl

/-- C8: enumeration-based loops feed the body `(index + start_offset, element)`
pairs in exactly native `enumerate` order, on both paths. First conjunct: the
graph-native bounded loop over a materialized enumeration target is the plain
fold of the body over the native `enumerate` pair sequence. Second conjunct:
the Python fallback over a `CEnumerate` target is the same fold. -/
theorem enumeration_pairs_in_order :
    (∀ (es : List Value) (sidx : Int)
        (f : Value → List Value → Except PyError (List Value)) (init : List Value),
      catalyst_for_loop 0 (es.length : Int) 1
          (catalyst_loop_body f stGet stSet (some sidx) (some es)) init init
        = match native_for f (enumElems sidx es) init with
          | .ok s2 => .ok (s2, s2)
          | .error e => .error e)
    ∧ (∀ (inner : PySeq) (sidx : Int)
        (f : Value → List Value → Except PyError (List Value)) (s : List Value),
      _call_python_for f stGet (.cenum inner sidx) s
        = match native_for f (enumElems sidx inner.elems) s with
          | .ok s2 => .ok (s2, s2)
          | .error e => .error e) := by
  constructor
  · intro es sidx f init
    have h := runLoop_enum_body f sidx es (rangeList 0 (es.length : Int) 1) init
    rw [catalyst_for_loop, h, graph_enum_elems]
  · intro inner sidx f s
    simp only [_call_python_for, nativeIter]
    cases hn : native_for f (enumElems sidx inner.elems) s with
    | error e => simp
    | ok s2 => simp [stGet_apply]

/-- C9: the loop guard must be absent. A non-absent guard fails the assertion
with an unsupported-construct (`AssertionError`) failure, and with the guard
absent the assertion branch is unreachable and lowering proceeds exactly as
`for_stmt_core`. -/
theorem for_stmt_guard_unsupported (σ : Type) (strict ig : Bool)
    (stack : List WalkFrame) (tb : TbFrame) (target : IterTarget)
    (f : Value → σ → Except PyError σ) (get_state : σ → List Value)
    (set_state : List Value → σ → σ) (names inames : List String) (s : σ) :
    (∀ g : Unit,
      for_stmt strict ig stack tb target (some g) f get_state set_state names inames s
        = .error .assertionError)
    ∧ for_stmt strict ig stack tb target none f get_state set_state names inames s
      = for_stmt_core strict ig stack tb target f get_state set_state names inames s :=
  ⟨fun _ => rfl, rfl⟩

/-- C10: an iteration target without `len()` support — a generator, or a
`CEnumerate` wrapping a generator — makes `for_stmt` raise the `TypeError`
from the `len()` call during classification, before any classification-failure
handling and in both strict and non-strict modes, instead of falling back to
native iteration. -/
theorem for_stmt_len_raises_typeerror (σ : Type) (strict ig : Bool)
    (stack : List WalkFrame) (tb : TbFrame) (es : List Value) (sidx : Int)
    (f : Value → σ → Except PyError σ) (get_state : σ → List Value)
    (set_state : List Value → σ → σ) (names inames : List String) (s : σ) :
    for_stmt strict ig stack tb (.seq (.gen es)) none f get_state set_state
        names inames s
      = .error (.typeError genLenMsg)
    ∧ for_stmt strict ig stack tb (.cenum (.gen es) sidx) none f get_state
        set_state names inames s
      = .error (.typeError genLenMsg) :=
  ⟨rfl, rfl⟩

end CatalystAG
